import Mathlib

/-!
# Verification of the vidgen scene-to-video assembly pipeline

A shallow embedding, over exact rationals, of the duration logic of the
`vidgen` repository: the Duration Reconciler (`ttsgen.sync_scene_durations_to_narration`),
the Clip Compiler (`compiler._scene_to_clip`), the Timeline Assembler
(`compiler._concat_with_xfade`, `compiler._freeze_extend_video`), the final
audio mix (`compiler._mix_audio_tracks`), the clip/skip loop of
`compiler.compile_video`, the animation dispatcher (`pipeline.step_generate_videos`
together with `videogen.generate_video`), and the stage sequencing of
`Pipeline.run`.

Python floats are idealised as rationals; `round(x, 1)` and the `%.3f`
formatting are modelled exactly as round-half-to-even to the corresponding
decimal place. External tools (ffmpeg, ffprobe, TTS, the HF / Veo backends)
are modelled by explicit success/failure oracles and by the durations they
report.
-/

namespace Vidgen

/-! ## Configuration constants (src/vidgen/config.py) -/

/-- `config.WIDTH` -/
def WIDTH : ℕ := 1080

/-- `config.HEIGHT` -/
def HEIGHT : ℕ := 1920

/-- `config.FPS` -/
def FPS : ℕ := 30

/-- `config.CROSSFADE_DURATION` (seconds). -/
def CROSSFADE_DURATION : ℚ := 8/10

/-- `config.NARRATION_LEAD_IN` (seconds of silence before speech). -/
def NARRATION_LEAD_IN : ℚ := 6/10

/-- `config.NARRATION_PADDING_AFTER` (seconds of silence after speech). -/
def NARRATION_PADDING_AFTER : ℚ := 1

/-- `config.MAX_RETRIES` -/
def MAX_RETRIES : ℕ := 3

/-! ## Python rounding

`sync_scene_durations_to_narration` stores `round(required_dur, 1)` and
`_freeze_extend_video` formats the pad length with `f"{extra:.3f}"`.  CPython's
`round` and `%`-formatting both round half to even; we model them exactly on
rationals. -/

/-- Round-half-to-even to the nearest integer (CPython `round` semantics,
idealised over ℚ). -/
def roundHalfEven (x : ℚ) : ℤ :=
  let f : ℤ := ⌊x⌋
  let r : ℚ := x - f
  if r < 1/2 then f
  else if 1/2 < r then f + 1
  else if Even f then f else f + 1

/-- Python `round(x, 1)`: round to the nearest tenth, ties to even. -/
def round1 (x : ℚ) : ℚ := (roundHalfEven (10 * x) : ℚ) / 10

/-- Python `f"{x:.3f}"` read back as a number: round to the nearest
thousandth, ties to even. -/
def round3 (x : ℚ) : ℚ := (roundHalfEven (1000 * x) : ℚ) / 1000

theorem roundHalfEven_ge (x : ℚ) : x - 1/2 ≤ (roundHalfEven x : ℚ) := by
  unfold roundHalfEven
  have hfl : (⌊x⌋ : ℚ) ≤ x := Int.floor_le x
  have hlt : x < ⌊x⌋ + 1 := Int.lt_floor_add_one x
  by_cases h1 : x - ⌊x⌋ < 1/2
  · simp only [h1, if_true]
    linarith
  · simp only [h1, if_false]
    by_cases h2 : (1:ℚ)/2 < x - ⌊x⌋
    · simp only [h2, if_true]
      push_cast
      linarith
    · simp only [h2, if_false]
      by_cases h3 : Even (⌊x⌋)
      · simp only [h3, if_true]
        linarith
      · simp only [h3, if_false]
        push_cast
        linarith

theorem roundHalfEven_le (x : ℚ) : (roundHalfEven x : ℚ) ≤ x + 1/2 := by
  unfold roundHalfEven
  have hfl : (⌊x⌋ : ℚ) ≤ x := Int.floor_le x
  have hlt : x < ⌊x⌋ + 1 := Int.lt_floor_add_one x
  by_cases h1 : x - ⌊x⌋ < 1/2
  · simp only [h1, if_true]
    linarith
  · simp only [h1, if_false]
    push_neg at h1
    by_cases h2 : (1:ℚ)/2 < x - ⌊x⌋
    · simp only [h2, if_true]
      push_cast
      linarith
    · simp only [h2, if_false]
      push_neg at h2
      by_cases h3 : Even (⌊x⌋)
      · simp only [h3, if_true]
        linarith
      · simp only [h3, if_false]
        push_cast
        linarith

theorem round1_ge (x : ℚ) : x - 1/20 ≤ round1 x := by
  unfold round1
  have h := roundHalfEven_ge (10 * x)
  linarith

theorem round1_le (x : ℚ) : round1 x ≤ x + 1/20 := by
  unfold round1
  have h := roundHalfEven_le (10 * x)
  linarith

theorem round3_ge (x : ℚ) : x - 1/2000 ≤ round3 x := by
  unfold round3
  have h := roundHalfEven_ge (1000 * x)
  linarith

/-! ## Scene model (src/vidgen/scriptgen.py) -/

/-- `scriptgen.Scene`: one narrated, timed unit of the output video.
`media_type` is the Python string `"image"` or `"video"`. -/
structure Scene where
  index : ℕ
  narration : String
  visual : String
  duration : ℚ
  media_type : String
  deriving Repr, DecidableEq

/-! ## Duration Reconciler (src/vidgen/ttsgen.py, sync_scene_durations_to_narration)

The loop body, for each scene: synthesise TTS from `scene.narration`, measure
`speech_dur`, compute `required_dur = NARRATION_LEAD_IN + speech_dur +
NARRATION_PADDING_AFTER`, and if `scene.duration < required_dur` set
`scene.duration = round(required_dur, 1)`.  The measured speech length is a
deterministic function of the narration text, passed in as `speech`. -/

/-- `required_dur` for a measured speech duration (`ttsgen.py` line 87). -/
def requiredDur (speechDur : ℚ) : ℚ :=
  NARRATION_LEAD_IN + speechDur + NARRATION_PADDING_AFTER

/-- The per-scene body of `sync_scene_durations_to_narration`
(`ttsgen.py` lines 81–101). -/
def syncScene (speech : String → ℚ) (s : Scene) : Scene :=
  let required := requiredDur (speech s.narration)
  if s.duration < required then { s with duration := round1 required } else s

/-- `sync_scene_durations_to_narration`: mutates each scene in place and
returns the list (`ttsgen.py` lines 63–114). -/
def sync_scene_durations_to_narration (speech : String → ℚ) (scenes : List Scene) :
    List Scene :=
  scenes.map (syncScene speech)

theorem syncScene_idem (speech : String → ℚ) (s : Scene) :
    syncScene speech (syncScene speech s) = syncScene speech s := by
  unfold syncScene
  by_cases h : s.duration < requiredDur (speech s.narration)
  · simp only [h, if_true]
    by_cases h2 : round1 (requiredDur (speech s.narration)) < requiredDur (speech s.narration)
    · simp [h2]
    · simp [h2]
  · simp [h]

/-- C2 (counterexample): the reconciler stores `round(required_dur, 1)`, not
`required_dur` itself, so the post-reconciliation duration can be strictly
below `required`.  For declared duration 10 s and measured speech 14.54 s,
`required = 16.14` but the stored duration is `16.1 < 16.14`. -/
theorem C2_counterexample :
    (Scene.mk 0 "n" "v" 10 "image").duration < requiredDur ((1454 : ℚ)/100)
    ∧ (syncScene (fun _ => (1454 : ℚ)/100) (Scene.mk 0 "n" "v" 10 "image")).duration
        < requiredDur ((1454 : ℚ)/100) := by
  constructor <;>
    norm_num [syncScene, round1, roundHalfEven, requiredDur,
      NARRATION_LEAD_IN, NARRATION_PADDING_AFTER]

/-- C2 (amended): for every scene, the Duration Reconciler computes
`required = lead_in + d_speech + pad_after` with `lead_in = 0.6` and
`pad_after = 1.0`, and whenever `scene.duration < required` it sets
`scene.duration` to `required` rounded to the nearest tenth, so the
post-reconciliation duration is within `0.05` of `required` (it can fall
short of `required` by up to `0.05`); for measured speech 14.5 s and declared
duration 10 s the reconciled duration is exactly 16.1 s (see the witness). -/
theorem C2_sync_sets_rounded_required (speech : String → ℚ) (s : Scene)
    (h : s.duration < requiredDur (speech s.narration)) :
    requiredDur (speech s.narration)
        = NARRATION_LEAD_IN + speech s.narration + NARRATION_PADDING_AFTER
    ∧ (syncScene speech s).duration = round1 (requiredDur (speech s.narration))
    ∧ requiredDur (speech s.narration) - 1/20 ≤ (syncScene speech s).duration
    ∧ (syncScene speech s).duration ≤ requiredDur (speech s.narration) + 1/20 := by
  refine ⟨rfl, ?_⟩
  unfold syncScene
  simp only [h, if_true]
  exact ⟨trivial, round1_ge _, round1_le _⟩

/-- Witness for C2: the spec's literal example — declared 10 s, measured
speech 14.5 s, `lead_in = 0.6`, `pad_after = 1.0` — reconciles to 16.1 s. -/
theorem C2_sync_sets_rounded_required_witness :
    ((Scene.mk 0 "n" "v" 10 "image").duration < requiredDur ((145 : ℚ)/10))
    ∧ (syncScene (fun _ => (145 : ℚ)/10) (Scene.mk 0 "n" "v" 10 "image")).duration
        = round1 (requiredDur ((145 : ℚ)/10))
    ∧ (syncScene (fun _ => (145 : ℚ)/10) (Scene.mk 0 "n" "v" 10 "image")).duration
        = 161/10 :=
  ⟨by norm_num [requiredDur, NARRATION_LEAD_IN, NARRATION_PADDING_AFTER],
   (C2_sync_sets_rounded_required (fun _ => (145 : ℚ)/10) (Scene.mk 0 "n" "v" 10 "image")
      (by norm_num [requiredDur, NARRATION_LEAD_IN, NARRATION_PADDING_AFTER])).2.1,
   by norm_num [syncScene, round1, roundHalfEven, requiredDur,
        NARRATION_LEAD_IN, NARRATION_PADDING_AFTER]⟩

/-- C5: the Duration Reconciler is idempotent — running
`sync_scene_durations_to_narration` a second time with the same measured
speech durations leaves every scene unchanged. -/
theorem C5_sync_idempotent (speech : String → ℚ) (scenes : List Scene) :
    sync_scene_durations_to_narration speech
        (sync_scene_durations_to_narration speech scenes)
      = sync_scene_durations_to_narration speech scenes := by
  unfold sync_scene_durations_to_narration
  rw [List.map_map]
  exact List.map_congr_left (fun s _ => syncScene_idem speech s)

/-! ## Timeline Assembler (src/vidgen/compiler.py, _concat_with_xfade)

The offset loop (`compiler.py` lines 475–482):

```python
offsets: list[float] = []
running_output_dur = clip_durations[0]
for i in range(n - 1):
    offset = running_output_dur - fade_dur
    offsets.append(max(0.1, offset))
    if i + 1 < len(clip_durations):
        running_output_dur = offset + clip_durations[i + 1]
```

Note that `running_output_dur` is advanced with the *unclamped* `offset`,
while the stored list holds `max(0.1, offset)`. -/

/-- One loop step per remaining clip: `rest` holds `clip_durations[i+1 ..]`. -/
def offsetsAux (fade : ℚ) : ℚ → List ℚ → List ℚ
  | _, [] => []
  | running, d :: rest =>
      max (1/10) (running - fade) :: offsetsAux fade ((running - fade) + d) rest

/-- The crossfade offsets `_concat_with_xfade` computes from the measured
clip durations (empty for fewer than two clips). -/
def computeOffsets (durs : List ℚ) (fade : ℚ) : List ℚ :=
  match durs with
  | [] => []
  | d0 :: rest => offsetsAux fade d0 rest

/-- The assembled timeline's total duration: the last xfade offset plus the
last clip's duration (the final xfade starts at the last offset and the last
clip plays out from there). -/
def timelineDuration (durs : List ℚ) (fade : ℚ) : ℚ :=
  (computeOffsets durs fade).getLastD 0 + durs.getLastD 0

theorem offsetsAux_floor (fade : ℚ) :
    ∀ (rest : List ℚ) (running o : ℚ), o ∈ offsetsAux fade running rest → 1/10 ≤ o := by
  intro rest
  induction rest with
  | nil => intro running o ho; simp [offsetsAux] at ho
  | cons d tail ih =>
    intro running o ho
    simp only [offsetsAux, List.mem_cons] at ho
    rcases ho with h | h
    · rw [h]; exact le_max_left _ _
    · exact ih _ o h

theorem offsetsAux_chain (fade : ℚ) :
    ∀ (rest : List ℚ) (running : ℚ), (∀ d ∈ rest, fade < d) →
      List.Chain' (· ≤ ·) (offsetsAux fade running rest) := by
  intro rest
  induction rest with
  | nil => intro running _; simp [offsetsAux]
  | cons d tail ih =>
    intro running h
    rw [offsetsAux]
    apply List.chain'_cons'.mpr
    refine ⟨?_, ih ((running - fade) + d) (fun x hx => h x (List.mem_cons_of_mem _ hx))⟩
    intro b hb
    cases tail with
    | nil => simp [offsetsAux] at hb
    | cons d2 t2 =>
      simp only [offsetsAux, List.head?_cons, Option.mem_def, Option.some.injEq] at hb
      have hd : fade < d := h d (List.mem_cons_self d _)
      rw [← hb]
      exact max_le_max le_rfl (by linarith)

theorem offsetsAux_getLastD (fade : ℚ) :
    ∀ (tail : List ℚ) (d1 running dflt : ℚ),
      1/10 ≤ running - fade → (∀ d ∈ d1 :: tail, fade < d) →
      (offsetsAux fade running (d1 :: tail)).getLastD dflt
        = running + (d1 :: tail).dropLast.sum - ((d1 :: tail).length : ℚ) * fade := by
  intro tail
  induction tail with
  | nil =>
    intro d1 running dflt hrun _
    rw [offsetsAux, offsetsAux, List.getLastD_cons, List.getLastD_nil,
      max_eq_right hrun]
    simp
  | cons d2 t2 ih =>
    intro d1 running dflt hrun h
    have hd1 : fade < d1 := h d1 (List.mem_cons_self d1 _)
    rw [offsetsAux, List.getLastD_cons]
    rw [ih d2 ((running - fade) + d1) _ (by linarith)
        (fun x hx => h x (List.mem_cons_of_mem _ hx))]
    simp only [List.dropLast_cons₂, List.sum_cons, List.length_cons]
    push_cast
    ring

theorem sum_dropLast_add_getLastD (a x : ℚ) (l : List ℚ) :
    (a :: l).dropLast.sum + (a :: l).getLastD x = (a :: l).sum := by
  induction l generalizing a x with
  | nil => simp
  | cons b t ih =>
    rw [List.dropLast_cons₂, List.sum_cons, List.getLastD_cons, List.sum_cons]
    have := ih b a
    linarith

/-- C3: for every clip-duration sequence with at least two clips and every
fade `f` with `0 < f < min(d)`, the stored crossfade offsets are
non-decreasing and every one of them is at least the `0.1` floor. -/
theorem C3_offsets_monotone_floored (durs : List ℚ) (fade : ℚ)
    (hlen : 2 ≤ durs.length) (hpos : 0 < fade) (hlt : ∀ d ∈ durs, fade < d) :
    List.Chain' (· ≤ ·) (computeOffsets durs fade)
    ∧ ∀ o ∈ computeOffsets durs fade, 1/10 ≤ o := by
  cases durs with
  | nil => simp [computeOffsets]
  | cons d0 rest =>
    exact ⟨offsetsAux_chain fade rest d0 (fun d hd => hlt d (List.mem_cons_of_mem _ hd)),
           fun o ho => offsetsAux_floor fade rest d0 o ho⟩

/-- Witness for C3 at the spec's example durations `[8, 10, 12]` with the
configured fade `CROSSFADE_DURATION = 0.8`. -/
theorem C3_offsets_monotone_floored_witness :
    (2 ≤ ([8, 10, 12] : List ℚ).length ∧ 0 < CROSSFADE_DURATION
      ∧ ∀ d ∈ ([8, 10, 12] : List ℚ), CROSSFADE_DURATION < d)
    ∧ (List.Chain' (· ≤ ·) (computeOffsets [8, 10, 12] CROSSFADE_DURATION)
      ∧ ∀ o ∈ computeOffsets [8, 10, 12] CROSSFADE_DURATION, 1/10 ≤ o) :=
  ⟨⟨by norm_num, by norm_num [CROSSFADE_DURATION],
    by intro d hd; fin_cases hd <;> norm_num [CROSSFADE_DURATION]⟩,
   C3_offsets_monotone_floored [8, 10, 12] CROSSFADE_DURATION (by norm_num)
     (by norm_num [CROSSFADE_DURATION])
     (by intro d hd; fin_cases hd <;> norm_num [CROSSFADE_DURATION])⟩

/-- C4 (counterexample): `f < min(d)` alone does not rule out clamping.
With measured durations `[0.85, 0.85]` and the configured fade `0.8`, the
lone unclamped offset would be `0.05`, so it is clamped to `0.1` and the
timeline duration is `0.95 ≠ 1.7 − 0.8 = 0.9`. -/
theorem C4_counterexample :
    (2 ≤ ([17/20, 17/20] : List ℚ).length
      ∧ ∀ d ∈ ([17/20, 17/20] : List ℚ), CROSSFADE_DURATION < d)
    ∧ timelineDuration [17/20, 17/20] CROSSFADE_DURATION
        ≠ ([17/20, 17/20] : List ℚ).sum
            - ((([17/20, 17/20] : List ℚ).length : ℚ) - 1) * CROSSFADE_DURATION := by
  refine ⟨⟨by norm_num, ?_⟩, ?_⟩
  · intro d hd; fin_cases hd <;> norm_num [CROSSFADE_DURATION]
  · norm_num [timelineDuration, computeOffsets, offsetsAux, CROSSFADE_DURATION,
      List.getLastD_cons, List.getLastD_nil, max_def]

/-- C4 (amended): if additionally the first clip clears the floor
(`0.1 ≤ d[0] − f`, which the example `[8, 10, 12]` with `f = 0.8` does), no
offset is clamped and the assembled timeline's total duration — the last
offset plus the last clip duration — equals `Σ d − (n−1)·f`. -/
theorem C4_timeline_total (d0 : ℚ) (rest : List ℚ) (fade : ℚ)
    (hne : rest ≠ []) (hpos : 0 < fade)
    (hlt : ∀ d ∈ d0 :: rest, fade < d) (hfloor : 1/10 ≤ d0 - fade) :
    timelineDuration (d0 :: rest) fade
      = (d0 :: rest).sum - (((d0 :: rest).length : ℚ) - 1) * fade := by
  obtain ⟨d1, tail, rfl⟩ := List.exists_cons_of_ne_nil hne
  unfold timelineDuration computeOffsets
  rw [offsetsAux_getLastD fade tail d1 d0 0 hfloor
      (fun d hd => hlt d (List.mem_cons_of_mem _ hd))]
  rw [List.getLastD_cons]
  have hsum := sum_dropLast_add_getLastD d1 d0 tail
  simp only [List.sum_cons, List.length_cons] at *
  push_cast
  linarith

/-- Witness for C4 at the spec's example: durations `[8, 10, 12]`,
fade `0.8` → total timeline duration `28.4` s. -/
theorem C4_timeline_total_witness :
    (([10, 12] : List ℚ) ≠ [] ∧ 0 < CROSSFADE_DURATION
      ∧ (∀ d ∈ (8 : ℚ) :: [10, 12], CROSSFADE_DURATION < d)
      ∧ 1/10 ≤ 8 - CROSSFADE_DURATION)
    ∧ timelineDuration ((8 : ℚ) :: [10, 12]) CROSSFADE_DURATION = 284/10 := by
  refine ⟨⟨List.cons_ne_nil _ _, by norm_num [CROSSFADE_DURATION], ?_,
    by norm_num [CROSSFADE_DURATION]⟩, ?_⟩
  · intro d hd; fin_cases hd <;> norm_num [CROSSFADE_DURATION]
  · rw [C4_timeline_total 8 [10, 12] CROSSFADE_DURATION (List.cons_ne_nil _ _)
      (by norm_num [CROSSFADE_DURATION])
      (by intro d hd; fin_cases hd <;> norm_num [CROSSFADE_DURATION])
      (by norm_num [CROSSFADE_DURATION])]
    norm_num [CROSSFADE_DURATION]

/-! ## Freeze-extend and final audio duration
(src/vidgen/compiler.py, compile_video step 3, _freeze_extend_video,
_mix_audio_tracks)

`compile_video` probes the merged video and the narration track and, when
`narr_dur > vid_dur + 0.1`, calls `_freeze_extend_video(merged, out, narr_dur)`.
`_freeze_extend_video` re-probes the input, computes `extra = target - current`,
copies unchanged when `extra <= 0.05`, and otherwise pads the last frame by
`tpad=...:stop_duration={extra:.3f}` (three-decimal formatting of `extra`);
if that ffmpeg invocation exits non-zero (compiler.py lines 434–438) it logs
a warning and copies the *unextended* video, and the run continues.  The
encoder is abstracted by the success flag `tpadOk`, as elsewhere in this
file.  `_mix_audio_tracks` then trims the narration with
`atrim=0:{vid_dur:.3f}` and forces `-t vid_dur`, so the final output's audio
lasts exactly as long as the (possibly extended) video.  Probes are assumed
exact. -/

/-- Duration produced by `_freeze_extend_video` (compiler.py lines 411–438):
already-long-enough inputs are copied; otherwise the tpad encode extends by
`round3 extra` on success, and on a non-zero exit the unextended video is
copied unchanged. -/
def freezeExtendDuration (tpadOk : Bool) (currentDur targetDur : ℚ) : ℚ :=
  if targetDur - currentDur ≤ 1/20 then currentDur
  else if tpadOk then currentDur + round3 (targetDur - currentDur)
  else currentDur

/-- Duration of the merged video after step 3 of `compile_video`
(compiler.py lines 354–366), for a run with a narration track. -/
def mergedDurationWithNarration (tpadOk : Bool) (vidDur narrDur : ℚ) : ℚ :=
  if narrDur > vidDur + 1/10 then freezeExtendDuration tpadOk vidDur narrDur
  else vidDur

/-- Final output audio duration for a run with narration:
`_mix_audio_tracks` trims/pads the mixed audio to the merged video's length. -/
def finalAudioDuration (tpadOk : Bool) (vidDur narrDur : ℚ) : ℚ :=
  mergedDurationWithNarration tpadOk vidDur narrDur

/-- C1 (counterexample): the comparison tolerance in `compile_video` is
`0.1` s — three frames at 30 fps, not less than one frame.  With a merged
video of `9.92` s and narration of `10` s no freeze-extension happens (not
even its encoder runs, so the oracle is irrelevant — `true` here), and the
final audio lasts `9.92 < 10 − 1/30` s: the narration is truncated by more
than one frame, and final visual duration is below narration duration. -/
theorem C1_counterexample :
    finalAudioDuration true (992/100) 10 < 10 - 1/(FPS : ℚ)
    ∧ finalAudioDuration true (992/100) 10 < 10 := by
  constructor <;>
    norm_num [finalAudioDuration, mergedDurationWithNarration,
      freezeExtendDuration, FPS]

/-- C1 (amended): for every run with a narration track in which the
freeze-extend encode succeeds (on a non-zero ffmpeg exit
`_freeze_extend_video` copies the unextended video and the run completes
with the full shortfall), the final output's audio duration is at least the
narration duration minus `0.1` s (the code's comparison tolerance — three
frames at 30 fps); and whenever the merged video falls short of the
narration by more than `0.1` s, the freeze-extend step brings the final
duration to within `0.0005` s of the narration duration (so it is never
more than `0.0005` below it). -/
theorem C1_final_audio_ge_narration_minus_tolerance (tpadOk : Bool)
    (vidDur narrDur : ℚ) (hok : tpadOk = true) :
    narrDur - 1/10 ≤ finalAudioDuration tpadOk vidDur narrDur
    ∧ (vidDur + 1/10 < narrDur →
        narrDur - 1/2000 ≤ finalAudioDuration tpadOk vidDur narrDur) := by
  subst hok
  unfold finalAudioDuration mergedDurationWithNarration freezeExtendDuration
  by_cases h : narrDur > vidDur + 1/10
  · have hextra : ¬ narrDur - vidDur ≤ 1/20 := by linarith
    simp only [h, if_true, hextra, if_false]
    have hr := round3_ge (narrDur - vidDur)
    constructor
    · linarith
    · intro _; linarith
  · simp only [h, if_false]
    push_neg at h
    constructor
    · linarith
    · intro hc; exact hc.elim

/-- Witness for C1: merged video `38` s, narration `42` s (the spec's
scenario 3) with a successful tpad encode — the freeze-extend closes the
4 s gap, leaving the final audio within `0.0005` s of the narration. -/
theorem C1_final_audio_ge_narration_minus_tolerance_witness :
    (true = true) ∧ ((38 : ℚ) + 1/10 < 42)
    ∧ (42 : ℚ) - 1/2000 ≤ finalAudioDuration true 38 42 :=
  ⟨rfl, by norm_num,
   (C1_final_audio_ge_narration_minus_tolerance true 38 42 rfl).2 (by norm_num)⟩

/-! ## Clip Compiler (src/vidgen/compiler.py, _scene_to_clip)

`_scene_to_clip` builds one ffmpeg command per scene: for still images it
first burns the narration text with PIL (`sub_<name>` file) and applies a
Ken-Burns `zoompan` with pattern `scene.index % 8`; for videos it
scales/crops (plus `drawtext` when the ffmpeg build has it).  On a non-zero
exit it makes exactly one fallback attempt — a plain
`scale=...:force_original_aspect_ratio=decrease,pad=...` letterbox with no
motion or overlay and the same `-t scene.duration` — and raises if that also
fails.  The external encoder is abstracted by a success predicate on the
command issued. -/

/-- `media_path.suffix.lower() in (".mp4", ".webm", ".avi", ".mov")`
(`compiler.py` line 202), for lowercase path strings. -/
def hasVideoSuffix (path : String) : Bool :=
  [".mp4", ".webm", ".avi", ".mov"].any (fun ext => ext.data.isSuffixOf path.data)

/-- `_kb_pattern` cycles through 8 Ken Burns patterns (`compiler.py` line 186). -/
def NUM_KB_PATTERNS : ℕ := 8

/-- The video filter chain of an ffmpeg clip command. -/
inductive VideoFilter
  /-- overscan `scale` + `zoompan` using pattern `patternIndex` (images). -/
  | kenBurns (patternIndex : ℕ) (frames : ℤ)
  /-- `scale:force_original_aspect_ratio=increase,crop` (+ optional `drawtext`). -/
  | scaleCrop (drawtext : Bool)
  /-- fallback `scale:force_original_aspect_ratio=decrease,pad` letterbox. -/
  | scalePad
  deriving Repr, DecidableEq

/-- The semantically relevant arguments of one ffmpeg clip-encode command. -/
structure FfmpegClipCmd where
  /-- `-loop 1` present (still-image input). -/
  loopStillInput : Bool
  /-- the `-i` input file. -/
  inputMedia : String
  /-- the `-t` target duration. -/
  targetDur : ℚ
  filter : VideoFilter
  deriving Repr, DecidableEq

/-- The input file actually fed to ffmpeg: for still images the
PIL-subtitled copy `sub_<name>` (or the raw image if PIL failed). -/
def clipInputMedia (mediaPath : String) (pilOk : Bool) : String :=
  if hasVideoSuffix mediaPath then mediaPath
  else if pilOk then "sub_" ++ mediaPath else mediaPath

/-- The primary encode command of `_scene_to_clip`
(compiler.py lines 218–258). -/
def primaryCmd (s : Scene) (mediaPath : String) (pilOk drawtextAvail : Bool) :
    FfmpegClipCmd :=
  if hasVideoSuffix mediaPath then
    { loopStillInput := false, inputMedia := clipInputMedia mediaPath pilOk,
      targetDur := s.duration, filter := .scaleCrop drawtextAvail }
  else
    { loopStillInput := true, inputMedia := clipInputMedia mediaPath pilOk,
      targetDur := s.duration,
      filter := .kenBurns (s.index % NUM_KB_PATTERNS) ⌊s.duration * (FPS : ℚ)⌋ }

/-- The single fallback command of `_scene_to_clip`
(compiler.py lines 271–288): simple scale + letterbox, no motion or overlay,
same `-t` duration. -/
def fallbackCmd (s : Scene) (mediaPath : String) (pilOk : Bool) : FfmpegClipCmd :=
  { loopStillInput := !(hasVideoSuffix mediaPath),
    inputMedia := clipInputMedia mediaPath pilOk,
    targetDur := s.duration, filter := .scalePad }

/-- `_scene_to_clip` (compiler.py lines 190–294): runs the primary command
and, on failure, exactly one fallback; returns the trace of attempted
commands together with the produced clip's command or the raised error. -/
def sceneToClip (s : Scene) (mediaPath : String) (pilOk drawtextAvail : Bool)
    (encodeOk : FfmpegClipCmd → Bool) :
    List FfmpegClipCmd × Except String FfmpegClipCmd :=
  let primary := primaryCmd s mediaPath pilOk drawtextAvail
  if encodeOk primary then ([primary], .ok primary)
  else
    let fb := fallbackCmd s mediaPath pilOk
    if encodeOk fb then ([primary, fb], .ok fb)
    else ([primary, fb],
      .error ("ffmpeg fallback failed for scene " ++ toString s.index))

/-- C6: when the primary encode fails, `_scene_to_clip` makes exactly one
fallback attempt, whose transform is the plain scale-and-letterbox with no
motion or overlay and whose `-t` target duration is exactly
`scene.duration`; if the fallback succeeds the produced clip is that
fallback command, and if it also fails `_scene_to_clip` raises instead of
producing a clip. -/
theorem C6_fallback_once_same_duration (s : Scene) (mediaPath : String)
    (pilOk drawtextAvail : Bool) (encodeOk : FfmpegClipCmd → Bool)
    (hfail : encodeOk (primaryCmd s mediaPath pilOk drawtextAvail) = false) :
    (sceneToClip s mediaPath pilOk drawtextAvail encodeOk).1
        = [primaryCmd s mediaPath pilOk drawtextAvail, fallbackCmd s mediaPath pilOk]
    ∧ (fallbackCmd s mediaPath pilOk).filter = .scalePad
    ∧ (fallbackCmd s mediaPath pilOk).targetDur = s.duration
    ∧ (sceneToClip s mediaPath pilOk drawtextAvail encodeOk).2
        = (if encodeOk (fallbackCmd s mediaPath pilOk)
           then Except.ok (fallbackCmd s mediaPath pilOk)
           else Except.error ("ffmpeg fallback failed for scene " ++ toString s.index)) := by
  unfold sceneToClip
  refine ⟨?_, rfl, rfl, ?_⟩ <;>
    · simp only [hfail, Bool.false_eq_true, if_false]
      by_cases hfb : encodeOk (fallbackCmd s mediaPath pilOk) <;> simp [hfb]

/-- Witness for C6: an image scene whose Ken Burns encode fails; only the
letterbox fallback (target duration 8 s, same as the scene) succeeds. -/
theorem C6_fallback_once_same_duration_witness :
    ((fun c : FfmpegClipCmd => decide (c.filter = .scalePad))
        (primaryCmd (Scene.mk 0 "n" "v" 8 "image") "scene_000.png" true false) = false)
    ∧ (fallbackCmd (Scene.mk 0 "n" "v" 8 "image") "scene_000.png" true).targetDur
        = (Scene.mk 0 "n" "v" 8 "image").duration
    ∧ (sceneToClip (Scene.mk 0 "n" "v" 8 "image") "scene_000.png" true false
        (fun c => decide (c.filter = .scalePad))).2
        = Except.ok (fallbackCmd (Scene.mk 0 "n" "v" 8 "image") "scene_000.png" true) := by
  have h := C6_fallback_once_same_duration (Scene.mk 0 "n" "v" 8 "image")
    "scene_000.png" true false (fun c => decide (c.filter = .scalePad)) (by decide)
  refine ⟨by decide, h.2.2.1, ?_⟩
  rw [h.2.2.2, if_pos]
  decide

/-! ## compile_video clip/skip loop (src/vidgen/compiler.py lines 324–337)

```python
for scene in scenes:
    if scene.index not in media_paths:
        if progress_cb:
            progress_cb(f"  ⚠ Skipping scene {scene.index} (no media)")
        continue
    clip_path = tmp / f"clip_{scene.index:03d}.mp4"
    _scene_to_clip(scene, media_paths[scene.index], clip_path, progress_cb)
    clip_paths.append(clip_path)
```

The media-path dict is modelled as an association list; clip encoding is
assumed to succeed (the loop aborts on encode failure, which C6 covers).
The function returns the scene indices of the produced clips, in order, and
the scene indices reported as skipped. -/

/-- The clip list and skip-warning list built by step 1 of `compile_video`. -/
def compileClipsWarnings (media : List (ℕ × String)) : List Scene → List ℕ × List ℕ
  | [] => ([], [])
  | s :: rest =>
    let acc := compileClipsWarnings media rest
    match media.lookup s.index with
    | none => (acc.1, s.index :: acc.2)
    | some _ => (s.index :: acc.1, acc.2)

/-- C7: for every scene list and media map whose keys all belong to scene
indices, the clips fed to the assembler are exactly the scenes (in order)
whose index is present in the map — so their number equals the number of
such scenes — and every scene absent from the map is reported skipped, so no
scene is dropped without a log record. -/
theorem C7_scene_count_conservation (scenes : List Scene) (media : List (ℕ × String))
    (hkeys : ∀ k ∈ media.map Prod.fst, ∃ s ∈ scenes, s.index = k) :
    (compileClipsWarnings media scenes).1
        = (scenes.filter (fun s => (media.lookup s.index).isSome)).map (fun s => s.index)
    ∧ (compileClipsWarnings media scenes).2
        = (scenes.filter (fun s => (media.lookup s.index).isNone)).map (fun s => s.index)
    ∧ (compileClipsWarnings media scenes).1.length
        = (scenes.filter (fun s => (media.lookup s.index).isSome)).length := by
  clear hkeys
  induction scenes with
  | nil => exact ⟨rfl, rfl, rfl⟩
  | cons s rest ih =>
    rw [compileClipsWarnings]
    cases hm : media.lookup s.index with
    | none => simp [List.filter_cons, hm, ih.1, ih.2.1, ih.2.2]
    | some m => simp [List.filter_cons, hm, ih.1, ih.2.1, ih.2.2]

/-- Witness for C7: two scenes, media only for scene 0 — one clip, one
logged skip. -/
theorem C7_scene_count_conservation_witness :
    (∀ k ∈ ([(0, "scene_000.png")] : List (ℕ × String)).map Prod.fst,
      ∃ s ∈ [Scene.mk 0 "a" "b" 8 "image", Scene.mk 1 "c" "d" 10 "image"], s.index = k)
    ∧ (compileClipsWarnings [(0, "scene_000.png")]
        [Scene.mk 0 "a" "b" 8 "image", Scene.mk 1 "c" "d" 10 "image"]).1
      = ([Scene.mk 0 "a" "b" 8 "image", Scene.mk 1 "c" "d" 10 "image"].filter
          (fun s => (([(0, "scene_000.png")] : List (ℕ × String)).lookup s.index).isSome)).map
          (fun s => s.index) := by
  refine ⟨by decide, ?_⟩
  exact (C7_scene_count_conservation
    [Scene.mk 0 "a" "b" 8 "image", Scene.mk 1 "c" "d" 10 "image"]
    [(0, "scene_000.png")] (by decide)).1

/-! ## Animation dispatcher failure path
(src/vidgen/videogen.py generate_video, src/vidgen/pipeline.py
step_generate_videos lines 233–240)

`generate_video` retries an HF image-to-video call up to `MAX_RETRIES`
times and raises after the last failure.  In `step_generate_videos` the
completion loop over the HF futures catches that exception, emits the
warning `"⚠ HF Animation failed for scene {idx}"`, and does *not* write to
`media_paths`, so the still-image entry written in stage 2 survives and the
stage returns normally. -/

/-- `generate_video`'s retry loop (videogen.py lines 44–75): `ok n` tells
whether attempt `n` (1-based) succeeds; returns the succeeding attempt
number or the final error. -/
def generateVideoAttempts (ok : ℕ → Bool) : ℕ → ℕ → Except String ℕ
  | _, 0 => .error ("Video generation failed after " ++ toString MAX_RETRIES ++ " attempts")
  | attempt, fuel + 1 =>
    if ok attempt then .ok attempt else generateVideoAttempts ok (attempt + 1) fuel

/-- `generate_video` tries attempts `1 .. MAX_RETRIES`. -/
def generate_video (ok : ℕ → Bool) : Except String ℕ :=
  generateVideoAttempts ok 1 MAX_RETRIES

/-- Python dict assignment `m[k] = v` on an association list. -/
def dictSet (m : List (ℕ × String)) (k : ℕ) (v : String) : List (ℕ × String) :=
  if (m.lookup k).isSome then m.map (fun p => if p.1 = k then (k, v) else p)
  else m ++ [(k, v)]

/-- The progress message of pipeline.py line 240. -/
def hfWarn (idx : ℕ) : String := "HF Animation failed for scene " ++ toString idx

/-- The HF-future completion loop (pipeline.py lines 233–240): for each
submitted job `(scene index, clip path)`, write the clip path into the map
on success, or log a warning and leave the map alone on failure. -/
def hfJoin (media : List (ℕ × String)) (jobs : List (ℕ × String))
    (succeeds : ℕ → Bool) : List (ℕ × String) × List String :=
  jobs.foldl
    (fun acc job =>
      if succeeds job.1 then (dictSet acc.1 job.1 job.2, acc.2)
      else (acc.1, acc.2 ++ [hfWarn job.1]))
    (media, [])

theorem lookup_map_setKey (t : List (ℕ × String)) (k k' : ℕ) (v : String)
    (h : k' ≠ k) :
    (t.map (fun p => if p.1 = k then (k, v) else p)).lookup k' = t.lookup k' := by
  induction t with
  | nil => rfl
  | cons p t ih =>
    simp only [List.map_cons]
    by_cases hp : p.1 = k
    · rw [if_pos hp]
      have hk : (k' == k) = false := by simp [h]
      have hne2 : k' ≠ p.1 := fun he => h (hp ▸ he)
      have hk2 : (k' == p.1) = false := by simp [hne2]
      simp [List.lookup, hk, hk2, ih]
    · rw [if_neg hp]
      by_cases hkp : k' = p.1
      · simp [List.lookup, hkp]
      · have hk' : (k' == p.1) = false := by simp [hkp]
        simp [List.lookup, hk', ih]

theorem lookup_append_single (m : List (ℕ × String)) (k k' : ℕ) (v : String)
    (h : k' ≠ k) :
    (m ++ [(k, v)]).lookup k' = m.lookup k' := by
  induction m with
  | nil =>
    have hk : (k' == k) = false := by simp [h]
    simp [List.lookup, hk]
  | cons p t ih =>
    by_cases hk : k' = p.1
    · simp [List.lookup, hk]
    · have hk' : (k' == p.1) = false := by simp [hk]
      simp [List.lookup, hk', ih]

theorem dictSet_lookup_ne (m : List (ℕ × String)) (k k' : ℕ) (v : String)
    (h : k' ≠ k) :
    (dictSet m k v).lookup k' = m.lookup k' := by
  unfold dictSet
  by_cases hs : (m.lookup k).isSome
  · simp only [hs, if_true]
    exact lookup_map_setKey m k k' v h
  · simp only [hs, Bool.false_eq_true, if_false]
    exact lookup_append_single m k k' v h

theorem hfJoin_go_lookup (succeeds : ℕ → Bool) (idx : ℕ)
    (hfail : succeeds idx = false) :
    ∀ (jobs : List (ℕ × String)) (m : List (ℕ × String)) (ls : List String),
      (jobs.foldl
        (fun acc job =>
          if succeeds job.1 then (dictSet acc.1 job.1 job.2, acc.2)
          else (acc.1, acc.2 ++ [hfWarn job.1]))
        (m, ls)).1.lookup idx = m.lookup idx := by
  intro jobs
  induction jobs with
  | nil => intro m ls; rfl
  | cons job t ih =>
    intro m ls
    by_cases hj : succeeds job.1
    · have hne : idx ≠ job.1 := fun he => by rw [he] at hfail; simp [hj] at hfail
      simp only [List.foldl_cons, hj, if_true]
      rw [ih (dictSet m job.1 job.2) ls]
      exact dictSet_lookup_ne m job.1 idx job.2 hne
    · simp only [List.foldl_cons, hj, Bool.false_eq_true, if_false]
      exact ih m (ls ++ [hfWarn job.1])

theorem hfJoin_go_logs_mono (succeeds : ℕ → Bool) :
    ∀ (jobs : List (ℕ × String)) (m : List (ℕ × String)) (ls : List String) (w : String),
      w ∈ ls →
      w ∈ (jobs.foldl
        (fun acc job =>
          if succeeds job.1 then (dictSet acc.1 job.1 job.2, acc.2)
          else (acc.1, acc.2 ++ [hfWarn job.1]))
        (m, ls)).2 := by
  intro jobs
  induction jobs with
  | nil => intro m ls w hw; exact hw
  | cons job t ih =>
    intro m ls w hw
    by_cases hj : succeeds job.1
    · simp only [List.foldl_cons, hj, if_true]
      exact ih _ ls w hw
    · simp only [List.foldl_cons, hj, Bool.false_eq_true, if_false]
      exact ih _ (ls ++ [hfWarn job.1]) w (List.mem_append_left _ hw)

theorem hfJoin_go_warn (succeeds : ℕ → Bool) (idx : ℕ) (vp : String)
    (hfail : succeeds idx = false) :
    ∀ (jobs : List (ℕ × String)) (m : List (ℕ × String)) (ls : List String),
      (idx, vp) ∈ jobs →
      hfWarn idx ∈ (jobs.foldl
        (fun acc job =>
          if succeeds job.1 then (dictSet acc.1 job.1 job.2, acc.2)
          else (acc.1, acc.2 ++ [hfWarn job.1]))
        (m, ls)).2 := by
  intro jobs
  induction jobs with
  | nil => intro m ls h; simp at h
  | cons job t ih =>
    intro m ls hmem
    rcases List.mem_cons.mp hmem with he | ht
    · rw [← he]
      simp only [List.foldl_cons, hfail, Bool.false_eq_true, if_false]
      exact hfJoin_go_logs_mono succeeds t m (ls ++ [hfWarn idx]) (hfWarn idx)
        (List.mem_append_right _ (List.mem_singleton.mpr rfl))
    · by_cases hj : succeeds job.1
      · simp only [List.foldl_cons, hj, if_true]
        exact ih _ ls ht
      · simp only [List.foldl_cons, hj, Bool.false_eq_true, if_false]
        exact ih _ (ls ++ [hfWarn job.1]) ht

/-- C8: if a scene's synchronous HF animation job fails (its
`generate_video` call raises after all `MAX_RETRIES` attempts), the
completion loop logs the failure and leaves the scene's still-image entry in
the media map unchanged; that still image later takes `_scene_to_clip`'s
image branch — looping the PIL-subtitled (text-overlaid) still through the
Ken Burns filter at the scene's duration — so the stage degrades instead of
failing. -/
theorem C8_hf_failure_degrades (media jobs : List (ℕ × String))
    (succeeds : ℕ → Bool) (idx : ℕ) (img vidP : String)
    (hfail : succeeds idx = false)
    (hjob : (idx, vidP) ∈ jobs)
    (himg : media.lookup idx = some img)
    (hstill : hasVideoSuffix img = false) :
    generate_video (fun _ => false)
        = .error ("Video generation failed after " ++ toString MAX_RETRIES ++ " attempts")
    ∧ (hfJoin media jobs succeeds).1.lookup idx = some img
    ∧ hfWarn idx ∈ (hfJoin media jobs succeeds).2
    ∧ ∀ (s : Scene) (drawtextAvail : Bool),
        primaryCmd s img true drawtextAvail
          = { loopStillInput := true, inputMedia := "sub_" ++ img,
              targetDur := s.duration,
              filter := .kenBurns (s.index % NUM_KB_PATTERNS)
                ⌊s.duration * (FPS : ℚ)⌋ } := by
  refine ⟨rfl, ?_, ?_, ?_⟩
  · rw [hfJoin, hfJoin_go_lookup succeeds idx hfail jobs media []]
    exact himg
  · exact hfJoin_go_warn succeeds idx vidP hfail jobs media [] hjob
  · intro s drawtextAvail
    unfold primaryCmd clipInputMedia
    simp [hstill]

/-- Witness for C8: scene 0's still `scene_000.png` is in the map, its HF
job fails, the map still holds the png and the warning is logged. -/
theorem C8_hf_failure_degrades_witness :
    ((fun _ : ℕ => false) 0 = false
      ∧ ((0, "scene_000.mp4") ∈ ([(0, "scene_000.mp4")] : List (ℕ × String)))
      ∧ ([(0, "scene_000.png")] : List (ℕ × String)).lookup 0 = some "scene_000.png"
      ∧ hasVideoSuffix "scene_000.png" = false)
    ∧ (hfJoin [(0, "scene_000.png")] [(0, "scene_000.mp4")] (fun _ => false)).1.lookup 0
        = some "scene_000.png"
    ∧ hfWarn 0 ∈ (hfJoin [(0, "scene_000.png")] [(0, "scene_000.mp4")] (fun _ => false)).2 := by
  have h := C8_hf_failure_degrades [(0, "scene_000.png")] [(0, "scene_000.mp4")]
    (fun _ => false) 0 "scene_000.png" "scene_000.mp4" rfl (by decide) (by decide) (by decide)
  exact ⟨⟨rfl, by decide, by decide, by decide⟩, h.2.1, h.2.2.1⟩

/-! ## MediaPathMap write traces
(src/vidgen/pipeline.py step_generate_images lines 133–159,
step_generate_videos lines 201–257)

`step_generate_images` writes `media_paths[scene.index] = scene_XXX.png`
once per scene whose generation (or its placeholder fallback) produces a
file.  `step_generate_videos` then, for every `media_type == "video"` scene
whose index is already in the map, writes
`media_paths[scene.index] = scene_XXX.mp4` when the animation (placeholder,
HF or Veo) produces a clip — overwriting the still-image entry.  We record
the sequence of writes each stage performs; `imgOk`/`animOk` abstract which
scenes' generators succeed. -/

/-- `tmp / f"scene_{i:03d}.png"` (pipeline.py line 137), name only. -/
def imgPath (i : ℕ) : String := "scene_" ++ toString i ++ ".png"

/-- `tmp / f"scene_{i:03d}.mp4"` (pipeline.py line 198), name only. -/
def vidPathName (i : ℕ) : String := "scene_" ++ toString i ++ ".mp4"

/-- The `(key, value)` writes `step_generate_images` performs, in order. -/
def stage2Writes (scenes : List Scene) (imgOk : ℕ → Bool) : List (ℕ × String) :=
  scenes.filterMap
    (fun s => if imgOk s.index then some (s.index, imgPath s.index) else none)

/-- The `(key, value)` writes `step_generate_videos` performs, in order:
only video scenes already present in `media` are eligible (pipeline.py
lines 163, 194–195). -/
def stage3Writes (scenes : List Scene) (media : List (ℕ × String))
    (animOk : ℕ → Bool) : List (ℕ × String) :=
  (scenes.filter
      (fun s => s.media_type == "video" && (media.lookup s.index).isSome)).filterMap
    (fun s => if animOk s.index then some (s.index, vidPathName s.index) else none)

/-- All MediaPathMap writes of one run, image stage then animation stage;
the animation stage sees the map produced by the image stage. -/
def pipelineWrites (scenes : List Scene) (imgOk animOk : ℕ → Bool) :
    List (ℕ × String) :=
  stage2Writes scenes imgOk
    ++ stage3Writes scenes (stage2Writes scenes imgOk) animOk

/-- C9 (counterexample): the map is not write-once across the two stages.
A single video scene gets its key written twice: `scene_000.png` by the
image stage, then overwritten with `scene_000.mp4` by the animation stage. -/
theorem C9_counterexample :
    ¬ ((pipelineWrites [Scene.mk 0 "n" "v" 8 "video"]
          (fun _ => true) (fun _ => true)).map Prod.fst).Nodup := by
  decide

theorem keys_filterMap_guard_sublist (l : List Scene) (q : Scene → Bool)
    (g : ℕ → String) :
    ((l.filterMap
        (fun s => if q s then some (s.index, g s.index) else none)).map Prod.fst).Sublist
      (l.map (fun s => s.index)) := by
  induction l with
  | nil => simp
  | cons s t ih =>
    by_cases hq : q s
    · simp only [List.filterMap_cons, hq, if_true, List.map_cons]
      exact ih.cons₂ _
    · simp only [List.filterMap_cons, hq, Bool.false_eq_true, if_false, List.map_cons]
      exact ih.cons _

/-- C9 (amended): given distinct scene indices, each stage taken on its own
writes every key at most once; the combined trace is not write-once because
every animation-stage write targets a key the image stage already populated
(video scenes' still entries are intentionally overwritten with clips). -/
theorem C9_per_stage_write_once (scenes : List Scene) (imgOk animOk : ℕ → Bool)
    (hnodup : (scenes.map (fun s => s.index)).Nodup) :
    ((stage2Writes scenes imgOk).map Prod.fst).Nodup
    ∧ ((stage3Writes scenes (stage2Writes scenes imgOk) animOk).map Prod.fst).Nodup
    ∧ ∀ kv ∈ stage3Writes scenes (stage2Writes scenes imgOk) animOk,
        ((stage2Writes scenes imgOk).lookup kv.1).isSome = true := by
  refine ⟨?_, ?_, ?_⟩
  · exact (keys_filterMap_guard_sublist scenes (fun s => imgOk s.index) imgPath).nodup
      hnodup
  · have hf : ((scenes.filter
        (fun s => s.media_type == "video"
          && ((stage2Writes scenes imgOk).lookup s.index).isSome)).map
        (fun s => s.index)).Sublist (scenes.map (fun s => s.index)) :=
      (List.filter_sublist _).map _
    exact (keys_filterMap_guard_sublist _ (fun s => animOk s.index) vidPathName).nodup
      (hf.nodup hnodup)
  · intro kv hkv
    rw [stage3Writes] at hkv
    obtain ⟨s, hs, hif⟩ := List.mem_filterMap.mp hkv
    by_cases ha : animOk s.index
    · rw [if_pos ha] at hif
      obtain rfl : kv = (s.index, vidPathName s.index) :=
        (Option.some_inj.mp hif).symm
      have := (List.mem_filter.mp hs).2
      exact (Bool.and_eq_true_iff.mp this).2
    · rw [if_neg ha] at hif
      exact absurd hif (by simp)

/-- Witness for C9 (amended) on an image scene plus a video scene with
distinct indices. -/
theorem C9_per_stage_write_once_witness :
    (([Scene.mk 0 "a" "b" 8 "image", Scene.mk 1 "c" "d" 10 "video"].map
        (fun s => s.index)).Nodup)
    ∧ ((stage2Writes [Scene.mk 0 "a" "b" 8 "image", Scene.mk 1 "c" "d" 10 "video"]
        (fun _ => true)).map Prod.fst).Nodup := by
  refine ⟨by decide, ?_⟩
  exact (C9_per_stage_write_once
    [Scene.mk 0 "a" "b" 8 "image", Scene.mk 1 "c" "d" 10 "video"]
    (fun _ => true) (fun _ => true) (by decide)).1

/-! ## Pipeline.run stage sequencing (src/vidgen/pipeline.py lines 402–445)

`Pipeline.run` executes, in order: script generation + story review (or a
log of the pre-provided scenes), the duration-sync call, then image
generation, video generation, narration, music, the Airtable export and the
final compile.  The duration-sync call site is

```python
sync_scene_durations_to_narration(
    self._scenes, self.progress_cb,
    voice=s.voice, rate=s.voice_rate, pitch=s.voice_pitch,
)
```

while the callee's signature (`ttsgen.py` lines 63–66) is
`sync_scene_durations_to_narration(scenes, progress_cb=None)`.  CPython
argument binding raises `TypeError` for a keyword argument that names no
parameter (the callee has no `**kwargs`); the only handlers in `run` are
`except PipelineCancelled` and a `finally`, so the `TypeError` propagates.
We model the binding check and the stage trace up to the first raise. -/

/-- The parameter names of `sync_scene_durations_to_narration`
(`ttsgen.py` lines 63–66); the function declares no `**kwargs`. -/
def sync_params : List String := ["scenes", "progress_cb"]

/-- The keyword-argument names `Pipeline.run` passes at the call site
(`pipeline.py` lines 425–428). -/
def run_sync_kwargs : List String := ["voice", "rate", "pitch"]

/-- CPython keyword binding for a function without `**kwargs`: the call
raises `TypeError` at the first keyword argument that is not a declared
parameter, and binds otherwise.  (Positional arity and duplicate binding
are not at issue at this call site and are not modelled.) -/
def bindKwargs (params : List String) (kwargs : List String) : Except String Unit :=
  match kwargs.find? (fun k => !params.contains k) with
  | some k => .error ("TypeError: got an unexpected keyword argument " ++ k)
  | none => .ok ()

/-- The stages of `Pipeline.run`, in source order. -/
inductive RunEvent
  | scriptGen | reviewStory | preProvidedLog | syncDurations | imageGen
  | videoGen | narrationGen | musicGen | airtableExport | compileStage
  deriving Repr, DecidableEq

/-- `Pipeline.run`: the stages executed before the duration-sync call, then
the call itself; on a binding error the exception carries the stages that
did run (the error escapes `run`, whose only handlers are
`except PipelineCancelled` and a `finally`).  `prompt` is only consumed by
later stages and by script generation, whose output is irrelevant to the
binding check. -/
def runModel (scenes : List Scene) (prompt : String) :
    Except (String × List RunEvent) (List RunEvent) :=
  let pre := if scenes.isEmpty then [RunEvent.scriptGen, RunEvent.reviewStory]
             else [RunEvent.preProvidedLog]
  match bindKwargs sync_params run_sync_kwargs with
  | .error e => .error (e, pre)
  | .ok _ => .ok (pre ++ [RunEvent.syncDurations, RunEvent.imageGen,
      RunEvent.videoGen, RunEvent.narrationGen, RunEvent.musicGen,
      RunEvent.airtableExport, RunEvent.compileStage])

/-- C10: for every pipeline with a non-empty scene list and every prompt,
`run` raises `TypeError` at the duration-sync call (its `voice` keyword
matches no parameter of `sync_scene_durations_to_narration`), having
executed only the pre-provided-scenes logging — in particular image
generation is never reached. -/
theorem C10_run_raises_type_error (scenes : List Scene) (prompt : String)
    (hne : scenes ≠ []) :
    runModel scenes prompt
      = .error ("TypeError: got an unexpected keyword argument voice",
          [RunEvent.preProvidedLog])
    ∧ RunEvent.imageGen ∉ [RunEvent.preProvidedLog] := by
  obtain ⟨s, rest, rfl⟩ := List.exists_cons_of_ne_nil hne
  exact ⟨rfl, by decide⟩

/-- Witness for C10 at a concrete one-scene pipeline. -/
theorem C10_run_raises_type_error_witness :
    ([Scene.mk 0 "n" "v" 8 "image"] ≠ [])
    ∧ runModel [Scene.mk 0 "n" "v" 8 "image"] "a story"
        = .error ("TypeError: got an unexpected keyword argument voice",
            [RunEvent.preProvidedLog]) :=
  ⟨List.cons_ne_nil _ _,
   (C10_run_raises_type_error [Scene.mk 0 "n" "v" 8 "image"] "a story"
      (List.cons_ne_nil _ _)).1⟩

end Vidgen
